import Mathlib

/-
  Verification of the CSV cleaning/transformation pipeline
  (validators.py and transformer.py), shallowly embedded in Lean.

  Strings are modelled as lists of character codes (`Str := List Nat`);
  a table cell is `Option Str`, where `none` models Python `None` / NaN
  (the reader loads every column with dtype=str, so each cell is either
  a string or NaN).
-/

namespace ProjectCSV

/-- A Python string, as its sequence of character codes. -/
abbrev Str := List Nat

/-- Character codes of a Lean string literal (for concrete inputs). -/
def strCodes (s : String) : Str := s.data.map Char.toNat

/-- A cell of the table: `none` models Python None / pandas NaN. -/
abbrev Cell := Option Str

/-- ASCII decimal digit, `\d` of the validator's regexes. -/
def isDigitCode (n : Nat) : Bool := decide (48 ≤ n ∧ n ≤ 57)

/-- Whitespace stripped by Python `str.strip()` (ASCII fragment). -/
def isSpaceCode (n : Nat) : Bool :=
  decide (n = 32 ∨ n = 9 ∨ n = 10 ∨ n = 13 ∨ n = 12 ∨ n = 11)

/-- ASCII letter (the cased characters relevant to `str.title()`). -/
def isAlphaCode (n : Nat) : Bool :=
  decide ((65 ≤ n ∧ n ≤ 90) ∨ (97 ≤ n ∧ n ≤ 122))

/-- ASCII uppercasing of one character code (Python `str.upper`). -/
def upCode (n : Nat) : Nat := if 97 ≤ n ∧ n ≤ 122 then n - 32 else n

/-- ASCII lowercasing of one character code (Python `str.lower`). -/
def lowCode (n : Nat) : Nat := if 65 ≤ n ∧ n ≤ 90 then n + 32 else n

/-- Python `str.strip()`: drop leading and trailing whitespace. -/
def trimCodes (s : Str) : Str :=
  ((s.dropWhile isSpaceCode).reverse.dropWhile isSpaceCode).reverse

/-- Python `str.upper()`. -/
def strUpper (s : Str) : Str := s.map upCode

/-- Python `str.lower()`. -/
def strLower (s : Str) : Str := s.map lowCode

/-- Worker for `strTitle`: the Boolean records whether the previous
    character was cased (a letter), exactly as CPython's `str.title`. -/
def titleGo (prevCased : Bool) : Str → Str
  | [] => []
  | c :: cs =>
    (if isAlphaCode c then (if prevCased then lowCode c else upCode c) else c)
      :: titleGo (isAlphaCode c) cs

/-- Python `str.title()`: a letter is uppercased when the previous
    character is not a letter, lowercased otherwise. -/
def strTitle (s : Str) : Str := titleGo false s

/- ------------------------------------------------------------------ -/
/- validators.py                                                       -/
/- ------------------------------------------------------------------ -/

/-- The failure reasons of `validate_client_matter_code`
    (its error-message strings, as an enumeration). -/
inductive Reason where
  | codeEmpty            -- "Client matter code is empty"
  | secondPartTruncated  -- "Possible truncation - second part too short"
  | firstPartTruncated   -- "Possible truncation - first part too short"
  | missingPeriod        -- "Invalid format - missing period"
  | badFormat            -- "Invalid format - expected XXXXX.XXXXX"
deriving DecidableEq, Repr

/-- `re.match(r"^\d{5}\.\d{5}$", s)`: five digits, a period (code 46),
    five digits, nothing else. -/
def pattern_match (s : Str) : Bool :=
  decide (s.length = 11) && (s.take 5).all isDigitCode &&
    s[5]? == some 46 && (s.drop 6).all isDigitCode

/-- `re.match(r"^\d+\.\d{1,4}$", s)`.  Since the leading `\d+` cannot
    contain the period, it is necessarily the maximal digit prefix, so
    the match is decided against `takeWhile isDigitCode`. -/
def sec_part_too_short_match (s : Str) : Bool :=
  let p := s.takeWhile isDigitCode
  let r := s.drop (p.length + 1)
  decide (1 ≤ p.length) && s[p.length]? == some 46 &&
    r.all isDigitCode && decide (1 ≤ r.length) && decide (r.length ≤ 4)

/-- `re.match(r"^\d{1,4}\.\d+$", s)`, decided the same way. -/
def first_part_too_short_match (s : Str) : Bool :=
  let p := s.takeWhile isDigitCode
  let r := s.drop (p.length + 1)
  decide (1 ≤ p.length) && decide (p.length ≤ 4) && s[p.length]? == some 46 &&
    r.all isDigitCode && decide (1 ≤ r.length)

/-- `validate_client_matter_code` (validators.py, lines 11-44):
    the ordered cascade of pattern checks. -/
def validate_client_matter_code (v : Cell) : Bool × Option Reason :=
  match v with
  | none => (false, some .codeEmpty)
  | some s =>
    let t := trimCodes s
    if pattern_match t then (true, none)
    else if sec_part_too_short_match t then (false, some .secondPartTruncated)
    else if first_part_too_short_match t then (false, some .firstPartTruncated)
    else if !(t.contains 46) then (false, some .missingPeriod)
    else (false, some .badFormat)

/-- One entry of the error list of `validate_dataframe_codes`. -/
structure ValidationError where
  row : Nat          -- index + 2 (0-indexing plus header row)
  value : Cell       -- the offending cell
  error : Option Reason
deriving DecidableEq, Repr

/-- The `for index, value in df[key_column].items()` loop of
    `validate_dataframe_codes`, with `i` the current index. -/
def rowErrorsFrom (i : Nat) : List Cell → List ValidationError
  | [] => []
  | c :: cs =>
    match validate_client_matter_code c with
    | (true, _) => rowErrorsFrom (i + 1) cs
    | (false, r) => ⟨i + 2, c, r⟩ :: rowErrorsFrom (i + 1) cs

/-- Error list for one column (indices start at 0). -/
def rowErrors (col : List Cell) : List ValidationError := rowErrorsFrom 0 col

/-- A DataFrame: named columns and rows of cells aligned by position. -/
structure DF where
  cols : List Str
  rows : List (List Cell)
deriving DecidableEq, Repr

/-- Extract the column named `name` (first match), as pandas `df[name]`
    does for a Series; `none` when the label is absent. -/
def DF.column (df : DF) (name : Str) : Option (List Cell) :=
  (df.cols.findIdx? (fun c => c == name)).map
    (fun i => df.rows.map (fun r => r.getD i none))

instance {ε α : Type _} [DecidableEq ε] [DecidableEq α] :
    DecidableEq (Except ε α) := fun x y =>
  match x, y with
  | .ok a, .ok b => decidable_of_iff (a = b) (by simp)
  | .error a, .error b => decidable_of_iff (a = b) (by simp)
  | .ok _, .error _ => isFalse (by simp)
  | .error _, .ok _ => isFalse (by simp)

/-- `validate_dataframe_codes` (validators.py, lines 47-90); the
    `ValueError` for a missing column is the `.error` case, carrying the
    missing column name. -/
def validate_dataframe_codes (df : DF) (key : Str) :
    Except Str (List ValidationError) :=
  match df.column key with
  | none => .error key
  | some col => .ok (rowErrors col)

/- ------------------------------------------------------------------ -/
/- transformer.py                                                      -/
/- ------------------------------------------------------------------ -/

/-- A parsed column mapping (transformer.py, class ColumnMapping). -/
structure ColumnMapping where
  source_name : Str
  dest_name : Str
deriving DecidableEq, Repr

/-- The `ValueError`s raised by `ColumnMapping.__init__`. -/
inductive MapError where
  | emptyMapping      -- "Column mapping cannot be empty"
  | malformedMapping  -- "Invalid column mapping syntax"
  | emptySourceName   -- "Source column name cannot be empty"
  | emptyDestName     -- "Destination column name cannot be empty"
deriving DecidableEq, Repr

/-- Python `s.split(":")` (code 58 is the colon): splits at every
    occurrence, keeping empty parts; the empty string yields `[""]`. -/
def splitColon : Str → List Str
  | [] => [[]]
  | c :: cs =>
    if c = 58 then [] :: splitColon cs
    else
      match splitColon cs with
      | [] => [[c]]
      | p :: ps => (c :: p) :: ps

/-- `ColumnMapping.__init__` (transformer.py, lines 22-72). -/
def mk_column_mapping (s : Str) : Except MapError ColumnMapping :=
  let t := trimCodes s
  if t.isEmpty then .error .emptyMapping
  else if t.contains 58 then
    let parts := splitColon t
    if parts.length ≠ 2 then .error .malformedMapping
    else
      let src := trimCodes (parts.getD 0 [])
      let dst := trimCodes (parts.getD 1 [])
      if src.isEmpty then .error .emptySourceName
      else if dst.isEmpty then .error .emptyDestName
      else .ok ⟨src, dst⟩
  else .ok ⟨t, t⟩

/-- `ColumnMapping.parse_mappings` (transformer.py, lines 74-94):
    a list comprehension, so the first failing directive aborts the
    whole parse with no partial result. -/
def parse_mappings (l : List Str) : Except MapError (List ColumnMapping) :=
  l.mapM mk_column_mapping

/-- `TransformConfig` (transformer.py, lines 97-132).  `case_transform`
    and `duplicate_handling` are the literal strings of the source. -/
structure TransformConfig where
  column_mappings : List ColumnMapping
  case_transform : Str      -- "upper" | "lower" | "proper" | "none"
  duplicate_handling : Str  -- "error" | "keep-first"
  key_column : Str
  output_path : Str
deriving DecidableEq, Repr

/-- The `ValueError`s raised by `transform_dataframe`. -/
inductive TransformError where
  | emptyInput                              -- "Cannot transform an empty DataFrame"
  | noMappings                              -- "No column mappings specified"
  | missingColumn (c : Str)                 -- "Column ... not found in source file"
  | emptyAfterProjection                    -- "No data remaining after column selection"
  | columnNotFound (c : Str)                -- ValueError out of validate_dataframe_codes
  | validationFailed (errs : List ValidationError)  -- "Validation errors found"
  | duplicateKeys (vals : List Cell)        -- "Duplicate values found in key column"
  | allRowsDuplicated                       -- "All rows were duplicates"
deriving DecidableEq, Repr

/-- The rename map built from the mappings
    (`{m.source_name: m.dest_name for m in config.column_mappings}`):
    a later mapping with the same source overrides an earlier one. -/
def renameDest (ms : List ColumnMapping) (s : Str) : Str :=
  match ms.reverse.find? (fun m => m.source_name == s) with
  | some m => m.dest_name
  | none => s

/-- Column labels after `df[source_cols]` and `df.rename`. -/
def projectedCols (ms : List ColumnMapping) : List Str :=
  (ms.map (·.source_name)).map (renameDest ms)

/-- One row of `df[source_cols]`: the cell of each mapping's source
    column, in mapping order. -/
def projectRow (cols : List Str) (ms : List ColumnMapping) (r : List Cell) :
    List Cell :=
  ms.map (fun m =>
    match cols.findIdx? (fun c => c == m.source_name) with
    | some i => r.getD i none
    | none => none)

/-- Apply a string function to a cell; NaN is left alone, as the pandas
    `.str` accessor does. -/
def cellMap (f : Str → Str) : Cell → Cell
  | none => none
  | some s => some (f s)

/-- The whitespace-trim stage (`.str.strip()` on every column; every
    column is dtype=str, hence object). -/
def trimStage (rows : List (List Cell)) : List (List Cell) :=
  rows.map (List.map (cellMap trimCodes))

/-- The `df.fillna("")` stage: every NaN becomes the empty string. -/
def fillnaStage (rows : List (List Cell)) : List (List Cell) :=
  rows.map (List.map (fun c =>
    match c with
    | none => some []
    | some s => some s))

/-- The case-transform stage (transformer.py, lines 196-208): an
    if/elif chain on the literal mode string; any other mode leaves the
    table unchanged. -/
def caseStage (mode : Str) (rows : List (List Cell)) : List (List Cell) :=
  if mode = strCodes "upper" then rows.map (List.map (cellMap strUpper))
  else if mode = strCodes "lower" then rows.map (List.map (cellMap strLower))
  else if mode = strCodes "proper" then rows.map (List.map (cellMap strTitle))
  else rows

/-- Rows after projection, trim, null-normalization and case transform
    (stages 2-5 of the pipeline). -/
def stagedRows (df : DF) (cfg : TransformConfig) : List (List Cell) :=
  caseStage cfg.case_transform
    (fillnaStage (trimStage (df.rows.map (projectRow df.cols cfg.column_mappings))))

/-- `Series.duplicated()` with a seen-set accumulator: a cell is
    flagged when it equals an earlier cell. -/
def dupFlags (seen : List Cell) : List Cell → List Bool
  | [] => []
  | c :: cs => seen.contains c :: dupFlags (c :: seen) cs

/-- `df[config.key_column].duplicated()`. -/
def duplicatedFlags (l : List Cell) : List Bool := dupFlags [] l

/-- `transform_dataframe` (transformer.py, lines 135-239).  The second
    component of the result collects the row counts echoed by
    `click.echo("Removed N duplicate rows")`. -/
def transform_dataframe (df : DF) (cfg : TransformConfig) :
    Except TransformError (DF × List Nat) :=
  if df.rows.isEmpty ∨ df.cols.isEmpty then .error .emptyInput
  else if cfg.column_mappings.isEmpty then .error .noMappings
  else
    match (cfg.column_mappings.map (·.source_name)).find?
        (fun c => !(df.cols.contains c)) with
    | some c => .error (.missingColumn c)
    | none =>
      let cols1 := projectedCols cfg.column_mappings
      let rows1 := df.rows.map (projectRow df.cols cfg.column_mappings)
      if rows1.isEmpty ∨ cols1.isEmpty then .error .emptyAfterProjection
      else
        let rows4 := caseStage cfg.case_transform (fillnaStage (trimStage rows1))
        let df4 : DF := ⟨cols1, rows4⟩
        if cols1.contains cfg.key_column then
          match validate_dataframe_codes df4 cfg.key_column with
          | .error c => .error (.columnNotFound c)
          | .ok errs =>
            if !errs.isEmpty then .error (.validationFailed errs)
            else
              match df4.column cfg.key_column with
              | none => .error (.columnNotFound cfg.key_column)
              | some keyvals =>
                let flags := duplicatedFlags keyvals
                if flags.any id then
                  if cfg.duplicate_handling = strCodes "error" then
                    .error (.duplicateKeys ((keyvals.zip flags).filterMap
                      (fun p => if p.2 then some p.1 else none)))
                  else if cfg.duplicate_handling = strCodes "keep-first" then
                    let kept := (rows4.zip flags).filterMap
                      (fun p => if p.2 then none else some p.1)
                    if kept.isEmpty then .error .allRowsDuplicated
                    else .ok (⟨cols1, kept⟩, [rows4.length - kept.length])
                  else .ok (df4, [])
                else .ok (df4, [])
        else .ok (df4, [])

/- ------------------------------------------------------------------ -/
/- Supporting lemmas                                                   -/
/- ------------------------------------------------------------------ -/

/-- If the first `n` elements satisfy `p` and the element at `n`
    refutes it, the maximal `p`-prefix has length exactly `n`. -/
theorem takeWhile_length_eq {p : Nat → Bool} (l : Str) :
    ∀ (n c : Nat), (l.take n).all p = true → l[n]? = some c → p c = false →
      (l.takeWhile p).length = n := by
  induction l with
  | nil => intro n c _ h2 _; simp at h2
  | cons a tl ih =>
    intro n c h1 h2 h3
    cases n with
    | zero =>
      simp only [List.getElem?_cons_zero, Option.some.injEq] at h2
      subst h2
      simp [List.takeWhile_cons, h3]
    | succ n =>
      simp only [List.take_succ_cons, List.all_cons, Bool.and_eq_true] at h1
      simp only [List.getElem?_cons_succ] at h2
      simp [List.takeWhile_cons, h1.1, ih n c h1.2 h2 h3]

/-- The two first regexes are disjoint: a string whose second group has
    1-4 digits cannot also match the exact 5+5 pattern. -/
theorem sec_not_pattern (t : Str) (h : sec_part_too_short_match t = true) :
    pattern_match t = false := by
  cases hpm : pattern_match t with
  | false => rfl
  | true =>
    exfalso
    simp only [pattern_match, Bool.and_eq_true, beq_iff_eq, decide_eq_true_eq] at hpm
    obtain ⟨⟨⟨hlen, hdig5⟩, hdot⟩, _⟩ := hpm
    have hTW : (t.takeWhile isDigitCode).length = 5 :=
      takeWhile_length_eq t 5 46 hdig5 hdot (by decide)
    simp only [sec_part_too_short_match, Bool.and_eq_true, beq_iff_eq,
      decide_eq_true_eq] at h
    rw [hTW] at h
    have hd : (t.drop (5 + 1)).length = t.length - (5 + 1) := List.length_drop _ _
    omega

/- ------------------------------------------------------------------ -/
/- C1: the validator's ordered cascade                                 -/
/- ------------------------------------------------------------------ -/

/-- C1: the code validator classifies by the fixed ordered cascade:
    null → CodeEmpty; else (on the trimmed text) exact pattern → valid;
    else second-part truncation; else first-part truncation; else no
    period → MissingPeriod; else BadFormat.  In particular, a string
    matching both truncation patterns reports SecondPartTruncated. -/
theorem C1_code_validator_cascade :
    validate_client_matter_code none = (false, some Reason.codeEmpty) ∧
    ∀ s : Str,
      (pattern_match (trimCodes s) = true →
        validate_client_matter_code (some s) = (true, none)) ∧
      (pattern_match (trimCodes s) = false →
       sec_part_too_short_match (trimCodes s) = true →
        validate_client_matter_code (some s) =
          (false, some Reason.secondPartTruncated)) ∧
      (pattern_match (trimCodes s) = false →
       sec_part_too_short_match (trimCodes s) = false →
       first_part_too_short_match (trimCodes s) = true →
        validate_client_matter_code (some s) =
          (false, some Reason.firstPartTruncated)) ∧
      (pattern_match (trimCodes s) = false →
       sec_part_too_short_match (trimCodes s) = false →
       first_part_too_short_match (trimCodes s) = false →
       (trimCodes s).contains 46 = false →
        validate_client_matter_code (some s) =
          (false, some Reason.missingPeriod)) ∧
      (pattern_match (trimCodes s) = false →
       sec_part_too_short_match (trimCodes s) = false →
       first_part_too_short_match (trimCodes s) = false →
       (trimCodes s).contains 46 = true →
        validate_client_matter_code (some s) =
          (false, some Reason.badFormat)) ∧
      (sec_part_too_short_match (trimCodes s) = true →
       first_part_too_short_match (trimCodes s) = true →
        validate_client_matter_code (some s) =
          (false, some Reason.secondPartTruncated)) := by
  refine ⟨rfl, fun s => ⟨?_, ?_, ?_, ?_, ?_, ?_⟩⟩
  · intro h1; simp [validate_client_matter_code, h1]
  · intro h1 h2; simp [validate_client_matter_code, h1, h2]
  · intro h1 h2 h3; simp [validate_client_matter_code, h1, h2, h3]
  · intro h1 h2 h3 h4
    have h4' : 46 ∉ trimCodes s := by simpa [List.contains] using h4
    simp [validate_client_matter_code, h1, h2, h3, h4']
  · intro h1 h2 h3 h4
    have h4' : 46 ∈ trimCodes s := by simpa [List.contains] using h4
    simp [validate_client_matter_code, h1, h2, h3, h4']
  · intro h2 _
    have h1 := sec_not_pattern _ h2
    simp [validate_client_matter_code, h1, h2]

/-- Witness for C1 at `"1.23"`, which matches both truncation patterns
    and is classified as SecondPartTruncated. -/
theorem C1_code_validator_cascade_witness :
    validate_client_matter_code (some (strCodes "1.23")) =
      (false, some Reason.secondPartTruncated) :=
  ((C1_code_validator_cascade.2 (strCodes "1.23")).2.2.2.2.2)
    (by decide) (by decide)

/- ------------------------------------------------------------------ -/
/- C4: table validation                                                -/
/- ------------------------------------------------------------------ -/

/-- Every reported error comes from a cell of the column: its row is
    the cell's index plus the header offset, its value is the cell,
    and its reason is the validator's verdict on that cell. -/
theorem rowErrorsFrom_mem :
    ∀ (col : List Cell) (k : Nat), ∀ e ∈ rowErrorsFrom k col,
      ∃ i, i < col.length ∧ e.row = i + (k + 2) ∧ e.value = col.getD i none ∧
        validate_client_matter_code e.value = (false, e.error) := by
  intro col
  induction col with
  | nil => intro k e he; simp [rowErrorsFrom] at he
  | cons c cs ih =>
    intro k e he
    rcases h : validate_client_matter_code c with ⟨b, r⟩
    cases b with
    | true =>
      simp only [rowErrorsFrom, h] at he
      obtain ⟨i, h1, h2, h3, h4⟩ := ih (k + 1) e he
      exact ⟨i + 1, by simpa using Nat.succ_lt_succ h1, by omega,
        by simpa [List.getD_cons_succ] using h3, h4⟩
    | false =>
      simp only [rowErrorsFrom, h, List.mem_cons] at he
      rcases he with rfl | he
      · exact ⟨0, Nat.succ_pos _, by simp, rfl, h⟩
      · obtain ⟨i, h1, h2, h3, h4⟩ := ih (k + 1) e he
        exact ⟨i + 1, by simpa using Nat.succ_lt_succ h1, by omega,
          by simpa [List.getD_cons_succ] using h3, h4⟩

/-- Conversely, every invalid cell is reported. -/
theorem rowErrorsFrom_complete :
    ∀ (col : List Cell) (k i : Nat) (r : Option Reason), i < col.length →
      validate_client_matter_code (col.getD i none) = (false, r) →
      (⟨i + (k + 2), col.getD i none, r⟩ : ValidationError) ∈ rowErrorsFrom k col := by
  intro col
  induction col with
  | nil => intro k i r h; simp at h
  | cons c cs ih =>
    intro k i r hlt hv
    cases i with
    | zero =>
      simp only [List.getD_cons_zero] at hv
      simp [rowErrorsFrom, hv]
    | succ i =>
      simp only [List.getD_cons_succ] at hv
      have hmem := ih (k + 1) i r (by simpa using Nat.lt_of_succ_lt_succ hlt) hv
      have hrow : i + 1 + (k + 2) = i + (k + 1 + 2) := by omega
      rcases h : validate_client_matter_code c with ⟨b, rr⟩
      cases b with
      | true =>
        simp only [rowErrorsFrom, h, List.getD_cons_succ]
        rw [hrow]
        exact hmem
      | false =>
        simp only [rowErrorsFrom, h, List.getD_cons_succ, List.mem_cons]
        right
        rw [hrow]
        exact hmem

/-- The reported errors are in strictly increasing row order. -/
theorem rowErrorsFrom_pairwise :
    ∀ (col : List Cell) (k : Nat),
      List.Pairwise (fun a b => a.row < b.row) (rowErrorsFrom k col) := by
  intro col
  induction col with
  | nil => intro k; simp [rowErrorsFrom]
  | cons c cs ih =>
    intro k
    rcases h : validate_client_matter_code c with ⟨b, r⟩
    cases b with
    | true => simp only [rowErrorsFrom, h]; exact ih (k + 1)
    | false =>
      simp only [rowErrorsFrom, h]
      refine List.Pairwise.cons ?_ (ih (k + 1))
      intro e he
      obtain ⟨i, _, h2, _, _⟩ := rowErrorsFrom_mem cs (k + 1) e he
      simp only [h2]
      omega

/-- C4: table validation fails with a column-not-found error when the
    column is absent; otherwise it reports, in row order, exactly one
    error per invalid cell, with row = index + 2, the cell's text as
    value, and the validator's reason; a present column with no rows
    gives the empty result. -/
theorem C4_table_validation :
    ∀ (df : DF) (key : Str),
      (df.column key = none → validate_dataframe_codes df key = .error key) ∧
      (∀ col, df.column key = some col →
        validate_dataframe_codes df key = .ok (rowErrors col) ∧
        List.Pairwise (fun a b => a.row < b.row) (rowErrors col) ∧
        (∀ e ∈ rowErrors col, ∃ i, i < col.length ∧ e.row = i + 2 ∧
          e.value = col.getD i none ∧
          validate_client_matter_code e.value = (false, e.error)) ∧
        (∀ i r, i < col.length →
          validate_client_matter_code (col.getD i none) = (false, r) →
          (⟨i + 2, col.getD i none, r⟩ : ValidationError) ∈ rowErrors col) ∧
        (col = [] → rowErrors col = [])) := by
  intro df key
  constructor
  · intro h; simp [validate_dataframe_codes, h]
  · intro col h
    refine ⟨by simp [validate_dataframe_codes, h], rowErrorsFrom_pairwise col 0,
      ?_, ?_, ?_⟩
    · intro e he
      obtain ⟨i, h1, h2, h3, h4⟩ := rowErrorsFrom_mem col 0 e he
      exact ⟨i, h1, by omega, h3, h4⟩
    · intro i r h1 h2
      have := rowErrorsFrom_complete col 0 i r h1 h2
      simpa using this
    · rintro rfl; rfl

/-- Witness for C4: a one-row table whose key cell is `"12345.1"`
    yields the single error {row 2, value "12345.1",
    SecondPartTruncated}. -/
theorem C4_table_validation_witness :
    validate_dataframe_codes ⟨[strCodes "Code"], [[some (strCodes "12345.1")]]⟩
        (strCodes "Code") =
      .ok [⟨2, some (strCodes "12345.1"), some Reason.secondPartTruncated⟩] := by
  have h := (C4_table_validation
      ⟨[strCodes "Code"], [[some (strCodes "12345.1")]]⟩ (strCodes "Code")).2
      [some (strCodes "12345.1")] (by decide)
  rw [h.1]
  decide

/- ------------------------------------------------------------------ -/
/- C6: mapping-directive parsing                                       -/
/- ------------------------------------------------------------------ -/

/-- Unfolding of `parse_mappings` on a cons cell. -/
theorem parse_mappings_cons (x : Str) (xs : List Str) :
    parse_mappings (x :: xs) =
      mk_column_mapping x >>= fun m =>
      parse_mappings xs >>= fun ms => pure (m :: ms) := by
  unfold parse_mappings
  rw [List.mapM_cons]

/-- C6: directive parsing: empty (after trim) fails EmptyMapping; with
    a colon, more than one separator fails MalformedMapping, an empty
    trimmed source or destination part fails EmptySourceName resp.
    EmptyDestName (so "Source:" fails); without a colon the trimmed
    directive is both source and destination; and a directive list is
    parsed in order, failing on the first bad directive with no
    partial result. -/
theorem C6_mapping_parsing :
    (∀ s, trimCodes s = [] → mk_column_mapping s = .error .emptyMapping) ∧
    (∀ s, (trimCodes s).contains 58 = true →
      (splitColon (trimCodes s)).length ≠ 2 →
      mk_column_mapping s = .error .malformedMapping) ∧
    (∀ s, (trimCodes s).contains 58 = true →
      (splitColon (trimCodes s)).length = 2 →
      trimCodes ((splitColon (trimCodes s)).getD 0 []) = [] →
      mk_column_mapping s = .error .emptySourceName) ∧
    (∀ s, (trimCodes s).contains 58 = true →
      (splitColon (trimCodes s)).length = 2 →
      trimCodes ((splitColon (trimCodes s)).getD 0 []) ≠ [] →
      trimCodes ((splitColon (trimCodes s)).getD 1 []) = [] →
      mk_column_mapping s = .error .emptyDestName) ∧
    mk_column_mapping (strCodes "Source:") = .error .emptyDestName ∧
    (∀ s, trimCodes s ≠ [] → (trimCodes s).contains 58 = false →
      mk_column_mapping s = .ok ⟨trimCodes s, trimCodes s⟩) ∧
    (∀ pre x suf e, (∀ y ∈ pre, ∃ m, mk_column_mapping y = .ok m) →
      mk_column_mapping x = .error e →
      parse_mappings (pre ++ x :: suf) = .error e) ∧
    (∀ l ms, parse_mappings l = .ok ms → ms.length = l.length ∧
      ∀ i, i < l.length →
        mk_column_mapping (l.getD i []) = .ok (ms.getD i ⟨[], []⟩)) := by
  have hne : ∀ s : Str, (trimCodes s).contains 58 = true → ¬ trimCodes s = [] := by
    intro s h hnil
    rw [hnil] at h
    simp [List.contains] at h
  refine ⟨?_, ?_, ?_, ?_, by decide, ?_, ?_, ?_⟩
  · intro s h; simp [mk_column_mapping, h]
  · intro s h1 h2
    simp only [mk_column_mapping]
    rw [if_neg (by simp only [List.isEmpty_eq_true]; exact hne s h1), if_pos h1,
      if_pos h2]
  · intro s h1 h2 h3
    simp only [mk_column_mapping]
    rw [if_neg (by simp only [List.isEmpty_eq_true]; exact hne s h1), if_pos h1,
      if_neg (by simp [h2]),
      if_pos (by simp only [List.isEmpty_eq_true]; exact h3)]
  · intro s h1 h2 h3 h4
    simp only [mk_column_mapping]
    rw [if_neg (by simp only [List.isEmpty_eq_true]; exact hne s h1), if_pos h1,
      if_neg (by simp [h2]),
      if_neg (by simp only [List.isEmpty_eq_true]; exact h3),
      if_pos (by simp only [List.isEmpty_eq_true]; exact h4)]
  · intro s h1 h2
    simp only [mk_column_mapping]
    rw [if_neg (by simp only [List.isEmpty_eq_true]; exact h1),
      if_neg (by rw [h2]; simp)]
  · intro pre
    induction pre with
    | nil =>
      intro x suf e _ hx
      rw [List.nil_append, parse_mappings_cons, hx]
      rfl
    | cons y pre ih =>
      intro x suf e hok hx
      obtain ⟨m, hm⟩ := hok y (by simp)
      have htail := ih x suf e (fun z hz => hok z (by simp [hz])) hx
      rw [List.cons_append, parse_mappings_cons, htail, hm]
      rfl
  · intro l
    induction l with
    | nil =>
      intro ms h
      simp only [parse_mappings, List.mapM_nil] at h
      cases h
      simp
    | cons x xs ih =>
      intro ms h
      simp only [parse_mappings, List.mapM_cons] at h
      cases hx : mk_column_mapping x with
      | error e => rw [hx] at h; cases h
      | ok m =>
        rw [hx] at h
        cases hxs : xs.mapM mk_column_mapping with
        | error e => rw [hxs] at h; cases h
        | ok ms' =>
          rw [hxs] at h
          have hms : ms = m :: ms' := by
            cases h; rfl
          subst hms
          obtain ⟨hlen, hidx⟩ := ih ms' hxs
          refine ⟨by simp [hlen], ?_⟩
          intro i hi
          cases i with
          | zero => simpa using hx
          | succ i => simpa using hidx i (by simpa using Nat.lt_of_succ_lt_succ hi)

/-- Witness for C6: a colon-free directive keeps its trimmed name. -/
theorem C6_mapping_parsing_witness :
    mk_column_mapping (strCodes " Name ") =
      .ok ⟨trimCodes (strCodes " Name "), trimCodes (strCodes " Name ")⟩ :=
  (C6_mapping_parsing.2.2.2.2.2.1) (strCodes " Name ") (by decide) (by decide)

/- ------------------------------------------------------------------ -/
/- C7: proper case (corrected)                                         -/
/- ------------------------------------------------------------------ -/

/-- The claim's notion of title-casing: only the first letter of each
    whitespace-delimited word is uppercased; every other letter is
    lowercased; word boundaries are whitespace only.  The Boolean
    records whether a letter of the current word has been seen. -/
def wsTitleGo (seenLetter : Bool) : Str → Str
  | [] => []
  | c :: cs =>
    if isSpaceCode c then c :: wsTitleGo false cs
    else if isAlphaCode c then
      (if seenLetter then lowCode c else upCode c) :: wsTitleGo true cs
    else c :: wsTitleGo seenLetter cs

/-- Title-casing as the claim states it (whitespace-delimited words). -/
def specWhitespaceTitle (s : Str) : Str := wsTitleGo false s

/-- What `str.title` actually computes, stated positionally: a letter
    is uppercased exactly when the preceding character is not a letter
    (word boundaries at every non-letter), else lowercased. -/
def specAlphaRunTitle (s : Str) : Str :=
  (s.zip (0 :: s)).map (fun p =>
    if isAlphaCode p.1 then
      (if isAlphaCode p.2 then lowCode p.1 else upCode p.1)
    else p.1)

theorem titleGo_eq_zip :
    ∀ (s : Str) (prev : Nat), titleGo (isAlphaCode prev) s =
      (s.zip (prev :: s)).map (fun p =>
        if isAlphaCode p.1 then
          (if isAlphaCode p.2 then lowCode p.1 else upCode p.1)
        else p.1) := by
  intro s
  induction s with
  | nil => intro prev; rfl
  | cons c cs ih =>
    intro prev
    simp only [titleGo, List.zip_cons_cons, List.map_cons]
    exact congrArg _ (ih c)

/-- C7 counterexample: on the cell "ab-cd" the pipeline's proper-case
    stage uppercases the letter after the hyphen ("Ab-Cd"), which is
    not the first letter of a whitespace-delimited word; the claim's
    whitespace-based title-casing would give "Ab-cd". -/
theorem C7_proper_case_counterexample :
    caseStage (strCodes "proper") [[some (strCodes "ab-cd")]]
        = [[some (strCodes "Ab-Cd")]] ∧
    specWhitespaceTitle (strCodes "ab-cd") = strCodes "Ab-cd" ∧
    ¬ (caseStage (strCodes "proper") [[some (strCodes "ab-cd")]]
        = [[some (specWhitespaceTitle (strCodes "ab-cd"))]]) :=
  ⟨by decide, by decide, by decide⟩

/-- C7 amended: the proper-case stage capitalizes the first letter of
    each maximal run of letters — word boundaries fall at every
    non-letter character, not only at whitespace — and lowercases every
    other letter, leaving non-letters unchanged. -/
theorem C7_proper_case_amended :
    ∀ rows, caseStage (strCodes "proper") rows =
      rows.map (List.map (cellMap specAlphaRunTitle)) := by
  have hfun : strTitle = specAlphaRunTitle := by
    funext s
    have h0 : (false : Bool) = isAlphaCode 0 := rfl
    unfold strTitle specAlphaRunTitle
    rw [h0, titleGo_eq_zip]
  intro rows
  unfold caseStage
  rw [if_neg (by decide), if_neg (by decide), if_pos rfl, hfun]

/- ------------------------------------------------------------------ -/
/- C8: idempotence of the case stage                                   -/
/- ------------------------------------------------------------------ -/

theorem upCode_upCode (n : Nat) : upCode (upCode n) = upCode n := by
  unfold upCode; split_ifs <;> omega

theorem lowCode_lowCode (n : Nat) : lowCode (lowCode n) = lowCode n := by
  unfold lowCode; split_ifs <;> omega

theorem isAlpha_upCode (n : Nat) : isAlphaCode (upCode n) = isAlphaCode n := by
  unfold isAlphaCode upCode
  split_ifs with h <;> exact decide_eq_decide.mpr (by omega)

theorem isAlpha_lowCode (n : Nat) : isAlphaCode (lowCode n) = isAlphaCode n := by
  unfold isAlphaCode lowCode
  split_ifs with h <;> exact decide_eq_decide.mpr (by omega)

theorem strUpper_idem (s : Str) : strUpper (strUpper s) = strUpper s := by
  unfold strUpper
  rw [List.map_map]
  exact List.map_congr_left (fun a _ => upCode_upCode a)

theorem strLower_idem (s : Str) : strLower (strLower s) = strLower s := by
  unfold strLower
  rw [List.map_map]
  exact List.map_congr_left (fun a _ => lowCode_lowCode a)

theorem titleGo_idem : ∀ (s : Str) (b : Bool),
    titleGo b (titleGo b s) = titleGo b s := by
  intro s
  induction s with
  | nil => intro b; rfl
  | cons c cs ih =>
    intro b
    cases hb : b <;> cases ha : isAlphaCode c <;>
      simp [titleGo, ha, isAlpha_upCode, isAlpha_lowCode,
        upCode_upCode, lowCode_lowCode, ih]

theorem strTitle_idem (s : Str) : strTitle (strTitle s) = strTitle s :=
  titleGo_idem s false

theorem cellMap_idem (f : Str → Str) (hf : ∀ s, f (f s) = f s) (c : Cell) :
    cellMap f (cellMap f c) = cellMap f c := by
  cases c <;> simp [cellMap, hf]

theorem map_cellMap_idem (f : Str → Str) (hf : ∀ s, f (f s) = f s)
    (rows : List (List Cell)) :
    (rows.map (List.map (cellMap f))).map (List.map (cellMap f)) =
      rows.map (List.map (cellMap f)) := by
  rw [List.map_map]
  refine List.map_congr_left (fun r _ => ?_)
  show List.map (cellMap f) (List.map (cellMap f) r) = List.map (cellMap f) r
  rw [List.map_map]
  exact List.map_congr_left (fun c _ => cellMap_idem f hf c)

theorem caseStage_upper (rs : List (List Cell)) :
    caseStage (strCodes "upper") rs = rs.map (List.map (cellMap strUpper)) := by
  unfold caseStage; rw [if_pos rfl]

theorem caseStage_lower (rs : List (List Cell)) :
    caseStage (strCodes "lower") rs = rs.map (List.map (cellMap strLower)) := by
  unfold caseStage; rw [if_neg (by decide), if_pos rfl]

theorem caseStage_proper (rs : List (List Cell)) :
    caseStage (strCodes "proper") rs = rs.map (List.map (cellMap strTitle)) := by
  unfold caseStage; rw [if_neg (by decide), if_neg (by decide), if_pos rfl]

/-- C8: the case-transform stage is idempotent for each of the modes
    upper, lower and proper. -/
theorem C8_case_stage_idempotent :
    ∀ (rows : List (List Cell)) (mode : Str),
      (mode = strCodes "upper" ∨ mode = strCodes "lower" ∨
        mode = strCodes "proper") →
      caseStage mode (caseStage mode rows) = caseStage mode rows := by
  intro rows mode h
  rcases h with rfl | rfl | rfl
  · simp only [caseStage_upper]
    exact map_cellMap_idem strUpper strUpper_idem rows
  · simp only [caseStage_lower]
    exact map_cellMap_idem strLower strLower_idem rows
  · simp only [caseStage_proper]
    exact map_cellMap_idem strTitle strTitle_idem rows

/-- Witness for C8 at mode = proper on a one-cell table. -/
theorem C8_case_stage_idempotent_witness :
    caseStage (strCodes "proper")
        (caseStage (strCodes "proper") [[some (strCodes "bob ltd")]]) =
      caseStage (strCodes "proper") [[some (strCodes "bob ltd")]] :=
  C8_case_stage_idempotent [[some (strCodes "bob ltd")]] (strCodes "proper")
    (Or.inr (Or.inr rfl))

/- ------------------------------------------------------------------ -/
/- Duplicate-flag characterization                                     -/
/- ------------------------------------------------------------------ -/

theorem dup_cond_succ_iff (k : Cell) (kt : List Cell) (seen : List Cell) (i : Nat) :
    ((k :: kt).getD (i + 1) none ∈ seen ∨
      ∃ j, j < i + 1 ∧ (k :: kt).getD j none = (k :: kt).getD (i + 1) none) ↔
    (kt.getD i none ∈ k :: seen ∨
      ∃ j, j < i ∧ kt.getD j none = kt.getD i none) := by
  simp only [List.getD_cons_succ]
  constructor
  · rintro (h | ⟨j, hj, he⟩)
    · exact Or.inl (List.mem_cons_of_mem _ h)
    · cases j with
      | zero =>
        refine Or.inl ?_
        rw [← show k = kt.getD i none from by simpa using he]
        exact List.mem_cons_self _ _
      | succ j => exact Or.inr ⟨j, by omega, by simpa using he⟩
  · rintro (h | ⟨j, hj, he⟩)
    · rcases List.mem_cons.mp h with h | h
      · exact Or.inr ⟨0, by omega, by simpa using h.symm⟩
      · exact Or.inl h
    · exact Or.inr ⟨j + 1, by omega, by simpa using he⟩

/-- The seen-set duplicate flags, characterized positionally: position
    `i` is flagged when its value is in the initial seen set or equals
    the value at an earlier position. -/
theorem dupFlags_eq_map :
    ∀ (kv seen : List Cell),
      dupFlags seen kv = (List.range kv.length).map
        (fun i => decide (kv.getD i none ∈ seen ∨
          ∃ j, j < i ∧ kv.getD j none = kv.getD i none)) := by
  intro kv
  induction kv with
  | nil => intro seen; rfl
  | cons k kt ih =>
    intro seen
    rw [dupFlags, show (k :: kt).length = kt.length + 1 from rfl,
      List.range_succ_eq_map, List.map_cons, List.map_map]
    congr 1
    · simp [List.contains]
    · rw [ih (k :: seen)]
      refine List.map_congr_left (fun i _ => ?_)
      exact decide_eq_decide.mpr (dup_cond_succ_iff k kt seen i).symm

/-- `Series.duplicated()`: a position is flagged exactly when some
    earlier position holds an equal value. -/
theorem duplicatedFlags_eq (kv : List Cell) :
    duplicatedFlags kv = (List.range kv.length).map
      (fun i => decide (∃ j, j < i ∧ kv.getD j none = kv.getD i none)) := by
  rw [duplicatedFlags, dupFlags_eq_map]
  refine List.map_congr_left (fun i _ => ?_)
  exact decide_eq_decide.mpr (by simp)

/-- Splitting the zip of a cons cell against range-indexed flags. -/
theorem zip_range_map_cons {α : Type} (x : α) (xt : List α) (g : Nat → Bool) :
    (x :: xt).zip ((List.range (x :: xt).length).map g)
      = (x, g 0) :: xt.zip ((List.range xt.length).map (g ∘ Nat.succ)) := by
  rw [show (x :: xt).length = xt.length + 1 from rfl, List.range_succ_eq_map,
    List.map_cons, List.map_map, List.zip_cons_cons]

/-- Splitting a filtered range over a cons cell. -/
theorem filter_range_cons (n : Nat) (q : Nat → Bool) :
    (List.range (n + 1)).filter q
      = (if q 0 then [0] else []) ++
        ((List.range n).filter (q ∘ Nat.succ)).map Nat.succ := by
  rw [List.range_succ_eq_map, List.filter_cons, List.filter_map]
  cases hq : q 0 <;> simp [hq]

/-- Filtering a zip against positionally-defined flags, keeping the
    unflagged entries. -/
theorem zip_map_range_keep {α : Type} (d : α) :
    ∀ (xs : List α) (g : Nat → Bool),
      (xs.zip ((List.range xs.length).map g)).filterMap
        (fun p => if p.2 then none else some p.1) =
      ((List.range xs.length).filter (fun i => !g i)).map
        (fun i => xs.getD i d) := by
  intro xs
  induction xs with
  | nil => intro g; rfl
  | cons x xt ih =>
    intro g
    rw [zip_range_map_cons, show (x :: xt).length = xt.length + 1 from rfl,
      filter_range_cons]
    cases g 0 with
    | true =>
      have hsel : ((x, true) :: xt.zip ((List.range xt.length).map
            (g ∘ Nat.succ))).filterMap (fun p => if p.2 then none else some p.1)
          = (xt.zip ((List.range xt.length).map (g ∘ Nat.succ))).filterMap
            (fun p => if p.2 then none else some p.1) := rfl
      rw [hsel, ih (g ∘ Nat.succ)]
      rw [if_neg (by simp), List.nil_append, List.map_map]
      exact List.map_congr_left (fun i _ => rfl)
    | false =>
      have hsel : ((x, false) :: xt.zip ((List.range xt.length).map
            (g ∘ Nat.succ))).filterMap (fun p => if p.2 then none else some p.1)
          = x :: (xt.zip ((List.range xt.length).map (g ∘ Nat.succ))).filterMap
            (fun p => if p.2 then none else some p.1) := rfl
      rw [hsel, ih (g ∘ Nat.succ)]
      rw [if_pos (by simp), List.singleton_append, List.map_cons, List.map_map,
        List.getD_cons_zero]
      exact congrArg _ (List.map_congr_left (fun i _ => rfl))

/-- Filtering a zip against positionally-defined flags, keeping the
    flagged entries. -/
theorem zip_map_range_select {α : Type} (d : α) :
    ∀ (xs : List α) (g : Nat → Bool),
      (xs.zip ((List.range xs.length).map g)).filterMap
        (fun p => if p.2 then some p.1 else none) =
      ((List.range xs.length).filter g).map (fun i => xs.getD i d) := by
  intro xs
  induction xs with
  | nil => intro g; rfl
  | cons x xt ih =>
    intro g
    rw [zip_range_map_cons, show (x :: xt).length = xt.length + 1 from rfl,
      filter_range_cons]
    cases g 0 with
    | true =>
      have hsel : ((x, true) :: xt.zip ((List.range xt.length).map
            (g ∘ Nat.succ))).filterMap (fun p => if p.2 then some p.1 else none)
          = x :: (xt.zip ((List.range xt.length).map (g ∘ Nat.succ))).filterMap
            (fun p => if p.2 then some p.1 else none) := rfl
      rw [hsel, ih (g ∘ Nat.succ)]
      rw [if_pos rfl, List.singleton_append, List.map_cons, List.map_map,
        List.getD_cons_zero]
      exact congrArg _ (List.map_congr_left (fun i _ => rfl))
    | false =>
      have hsel : ((x, false) :: xt.zip ((List.range xt.length).map
            (g ∘ Nat.succ))).filterMap (fun p => if p.2 then some p.1 else none)
          = (xt.zip ((List.range xt.length).map (g ∘ Nat.succ))).filterMap
            (fun p => if p.2 then some p.1 else none) := rfl
      rw [hsel, ih (g ∘ Nat.succ)]
      rw [if_neg (by simp), List.nil_append, List.map_map]
      exact List.map_congr_left (fun i _ => rfl)

/-- keep-first deduplication (`drop_duplicates(subset=key, keep="first")`):
    the retained rows are those whose key does not repeat an earlier key. -/
theorem keep_first_eq {α : Type} (d : α) (kv : List Cell) (xs : List α)
    (h : xs.length = kv.length) :
    (xs.zip (duplicatedFlags kv)).filterMap
      (fun p => if p.2 then none else some p.1) =
    ((List.range xs.length).filter
      (fun i => !decide (∃ j, j < i ∧ kv.getD j none = kv.getD i none))).map
      (fun i => xs.getD i d) := by
  rw [duplicatedFlags_eq, ← h, zip_map_range_keep d]

/-- The duplicate values listed in `error` mode: the key at every
    flagged (non-first) position, once per occurrence. -/
theorem dup_select_eq (kv : List Cell) :
    (kv.zip (duplicatedFlags kv)).filterMap
      (fun p => if p.2 then some p.1 else none) =
    ((List.range kv.length).filter
      (fun i => decide (∃ j, j < i ∧ kv.getD j none = kv.getD i none))).map
      (fun i => kv.getD i none) := by
  rw [duplicatedFlags_eq, zip_map_range_select none]

/-- Keep-first deduplication yields a sublist of the original rows
    (relative order preserved). -/
theorem filterMap_zip_sublist {α : Type} :
    ∀ (xs : List α) (bs : List Bool),
      List.Sublist
        ((xs.zip bs).filterMap (fun p => if p.2 then none else some p.1)) xs := by
  intro xs
  induction xs with
  | nil => intro bs; exact List.nil_sublist _
  | cons x xt ih =>
    intro bs
    cases bs with
    | nil => exact List.nil_sublist _
    | cons b bt =>
      rw [List.zip_cons_cons]
      cases b with
      | true =>
        have hstep : ((x, true) :: xt.zip bt).filterMap
              (fun p => if p.2 then none else some p.1)
            = (xt.zip bt).filterMap (fun p => if p.2 then none else some p.1) :=
          rfl
        rw [hstep]
        exact (ih bt).cons x
      | false =>
        have hstep : ((x, false) :: xt.zip bt).filterMap
              (fun p => if p.2 then none else some p.1)
            = x :: (xt.zip bt).filterMap
                (fun p => if p.2 then none else some p.1) :=
          rfl
        rw [hstep]
        exact (ih bt).cons₂ x

/- ------------------------------------------------------------------ -/
/- Pipeline plumbing                                                   -/
/- ------------------------------------------------------------------ -/

theorem findIdx?_some_pred {α : Type _} (p : α → Bool) :
    ∀ (l : List α) (i : Nat), l.findIdx? p = some i → ∃ x ∈ l, p x = true := by
  intro l
  induction l with
  | nil => intro i h; simp at h
  | cons a tl ih =>
    intro i h
    rw [List.findIdx?_cons] at h
    by_cases hp : p a
    · exact ⟨a, by simp, hp⟩
    · rw [if_neg hp] at h
      rw [List.findIdx?_start_succ] at h
      cases hf : tl.findIdx? p with
      | none => rw [hf] at h; cases h
      | some j =>
        obtain ⟨x, hx, hpx⟩ := ih j hf
        exact ⟨x, by simp [hx], hpx⟩

theorem DF.column_contains {df : DF} {key : Str} {col : List Cell}
    (h : df.column key = some col) : df.cols.contains key = true := by
  unfold DF.column at h
  cases hf : df.cols.findIdx? (fun c => c == key) with
  | none => rw [hf] at h; cases h
  | some i =>
    obtain ⟨x, hx, hpx⟩ := findIdx?_some_pred _ _ i hf
    have hxk : x = key := by simpa using hpx
    subst hxk
    simp [List.contains, hx]

theorem DF.column_decomp {df : DF} {key : Str} {col : List Cell}
    (h : df.column key = some col) :
    ∃ i, df.cols.findIdx? (fun c => c == key) = some i ∧
      i < df.cols.length ∧ col = df.rows.map (fun r => r.getD i none) := by
  unfold DF.column at h
  cases hf : df.cols.findIdx? (fun c => c == key) with
  | none => rw [hf] at h; cases h
  | some i =>
    rw [hf, Option.map_some'] at h
    injection h with h2
    exact ⟨i, rfl, (List.findIdx?_eq_some_iff_findIdx_eq.mp hf).1, h2.symm⟩

theorem length_caseStage (mode : Str) (rs : List (List Cell)) :
    (caseStage mode rs).length = rs.length := by
  unfold caseStage; split_ifs <;> simp

theorem stagedRows_length (df : DF) (cfg : TransformConfig) :
    (stagedRows df cfg).length = df.rows.length := by
  unfold stagedRows fillnaStage trimStage
  rw [length_caseStage]
  simp

theorem stagedRows_def (df : DF) (cfg : TransformConfig) :
    caseStage cfg.case_transform (fillnaStage (trimStage
      (df.rows.map (projectRow df.cols cfg.column_mappings)))) =
    stagedRows df cfg := rfl

/-- Under the preconditions of stages 1-2 (non-empty table, non-empty
    mappings, all source columns present), the pipeline reduces to its
    key-validation / duplicate-resolution core over the staged table. -/
theorem transform_core (df : DF) (cfg : TransformConfig)
    (hrows : df.rows ≠ []) (hcols : df.cols ≠ [])
    (hmaps : cfg.column_mappings ≠ [])
    (hsrc : ∀ m ∈ cfg.column_mappings, df.cols.contains m.source_name = true) :
    transform_dataframe df cfg =
      (if (projectedCols cfg.column_mappings).contains cfg.key_column then
        match validate_dataframe_codes
            ⟨projectedCols cfg.column_mappings, stagedRows df cfg⟩
            cfg.key_column with
        | .error c => .error (.columnNotFound c)
        | .ok errs =>
          if !errs.isEmpty then .error (.validationFailed errs)
          else
            match DF.column ⟨projectedCols cfg.column_mappings, stagedRows df cfg⟩
                cfg.key_column with
            | none => .error (.columnNotFound cfg.key_column)
            | some keyvals =>
              if (duplicatedFlags keyvals).any id then
                if cfg.duplicate_handling = strCodes "error" then
                  .error (.duplicateKeys
                    ((keyvals.zip (duplicatedFlags keyvals)).filterMap
                      (fun p => if p.2 then some p.1 else none)))
                else if cfg.duplicate_handling = strCodes "keep-first" then
                  (if (((stagedRows df cfg).zip (duplicatedFlags keyvals)).filterMap
                        (fun p => if p.2 then none else some p.1)).isEmpty then
                    .error .allRowsDuplicated
                  else
                    .ok (⟨projectedCols cfg.column_mappings,
                      ((stagedRows df cfg).zip (duplicatedFlags keyvals)).filterMap
                        (fun p => if p.2 then none else some p.1)⟩,
                      [(stagedRows df cfg).length -
                        ((((stagedRows df cfg).zip (duplicatedFlags keyvals)).filterMap
                          (fun p => if p.2 then none else some p.1))).length]))
                else .ok (⟨projectedCols cfg.column_mappings, stagedRows df cfg⟩, [])
              else .ok (⟨projectedCols cfg.column_mappings, stagedRows df cfg⟩, [])
      else .ok (⟨projectedCols cfg.column_mappings, stagedRows df cfg⟩, [])) := by
  have hA : ¬ (df.rows.isEmpty = true ∨ df.cols.isEmpty = true) := by
    simp [List.isEmpty_iff, hrows, hcols]
  have hB : ¬ cfg.column_mappings.isEmpty = true := by
    simp [List.isEmpty_iff, hmaps]
  have hfind : (cfg.column_mappings.map (fun m => m.source_name)).find?
      (fun c => !(df.cols.contains c)) = none := by
    rw [List.find?_eq_none]
    intro x hx
    obtain ⟨m, hm, rfl⟩ := List.mem_map.mp hx
    have hmem : m.source_name ∈ df.cols := by
      simpa [List.contains] using hsrc m hm
    simp [List.contains, hmem]
  have hC : ¬ ((df.rows.map (projectRow df.cols cfg.column_mappings)).isEmpty = true
      ∨ (projectedCols cfg.column_mappings).isEmpty = true) := by
    simp [List.isEmpty_iff, List.map_eq_nil_iff, hrows, projectedCols, hmaps]
  unfold transform_dataframe
  rw [if_neg hA, if_neg hB]
  simp only [hfind]
  rw [if_neg hC, stagedRows_def]

/- ------------------------------------------------------------------ -/
/- C5: key column absent from the projection                           -/
/- ------------------------------------------------------------------ -/

/-- C5: when the key column is not among the projected (post-rename)
    columns, the pipeline silently skips key validation and duplicate
    handling and returns the table produced by the projection, trim,
    null-normalization and case stages alone, with no echo. -/
theorem C5_key_absent_skips (df : DF) (cfg : TransformConfig)
    (hrows : df.rows ≠ []) (hcols : df.cols ≠ [])
    (hmaps : cfg.column_mappings ≠ [])
    (hsrc : ∀ m ∈ cfg.column_mappings, df.cols.contains m.source_name = true)
    (hkey : (projectedCols cfg.column_mappings).contains cfg.key_column = false) :
    transform_dataframe df cfg =
      .ok (⟨projectedCols cfg.column_mappings, stagedRows df cfg⟩, []) := by
  rw [transform_core df cfg hrows hcols hmaps hsrc]
  rw [if_neg (by rw [hkey]; simp)]

/-- Witness for C5: duplicate invalid keys under a key column that is
    not projected — the pipeline succeeds untouched. -/
theorem C5_key_absent_skips_witness :
    transform_dataframe
        ⟨[strCodes "A"], [[some (strCodes "x")], [some (strCodes "x")]]⟩
        ⟨[⟨strCodes "A", strCodes "A"⟩], strCodes "none", strCodes "error",
          strCodes "K", strCodes "out.csv"⟩ =
      .ok (⟨projectedCols [⟨strCodes "A", strCodes "A"⟩],
        stagedRows ⟨[strCodes "A"], [[some (strCodes "x")], [some (strCodes "x")]]⟩
          ⟨[⟨strCodes "A", strCodes "A"⟩], strCodes "none", strCodes "error",
            strCodes "K", strCodes "out.csv"⟩⟩, []) :=
  C5_key_absent_skips
    ⟨[strCodes "A"], [[some (strCodes "x")], [some (strCodes "x")]]⟩
    ⟨[⟨strCodes "A", strCodes "A"⟩], strCodes "none", strCodes "error",
      strCodes "K", strCodes "out.csv"⟩
    (by decide) (by decide) (by decide) (by decide) (by decide)

/- ------------------------------------------------------------------ -/
/- C2: keep-first duplicate resolution                                 -/
/- ------------------------------------------------------------------ -/

/-- C2: with duplicate_mode = keep-first, when the key column is
    projected, validation passes and duplicates exist, the pipeline
    keeps exactly the rows whose key does not equal the key of any
    earlier row (the first occurrence of each key value), preserving
    relative order (a sublist of the staged rows), and echoes the
    number of removed rows. -/
theorem C2_keep_first_duplicates (df : DF) (cfg : TransformConfig)
    (kv : List Cell)
    (hrows : df.rows ≠ []) (hcols : df.cols ≠ [])
    (hmaps : cfg.column_mappings ≠ [])
    (hsrc : ∀ m ∈ cfg.column_mappings, df.cols.contains m.source_name = true)
    (hmode : cfg.duplicate_handling = strCodes "keep-first")
    (hkv : DF.column ⟨projectedCols cfg.column_mappings, stagedRows df cfg⟩
      cfg.key_column = some kv)
    (hval : rowErrors kv = [])
    (hdup : (duplicatedFlags kv).any id = true) :
    ∃ kept : List (List Cell),
      transform_dataframe df cfg =
        .ok (⟨projectedCols cfg.column_mappings, kept⟩,
          [(stagedRows df cfg).length - kept.length]) ∧
      kept = ((List.range (stagedRows df cfg).length).filter
        (fun i => !decide (∃ j, j < i ∧ kv.getD j none = kv.getD i none))).map
        (fun i => (stagedRows df cfg).getD i []) ∧
      List.Sublist kept (stagedRows df cfg) := by
  have hcont := DF.column_contains hkv
  obtain ⟨i, hfi, hlt, hcol⟩ := DF.column_decomp hkv
  have hlen : (stagedRows df cfg).length = kv.length := by
    rw [hcol]; simp
  have hvdc : validate_dataframe_codes
      ⟨projectedCols cfg.column_mappings, stagedRows df cfg⟩ cfg.key_column =
      .ok (rowErrors kv) := by
    unfold validate_dataframe_codes
    rw [hkv]
  have hkept := keep_first_eq ([] : List Cell) kv (stagedRows df cfg) hlen
  have h0mem : (0 : Nat) ∈ (List.range (stagedRows df cfg).length).filter
      (fun i => !decide (∃ j, j < i ∧ kv.getD j none = kv.getD i none)) := by
    rw [List.mem_filter]
    refine ⟨?_, by simp⟩
    rw [List.mem_range, stagedRows_length]
    exact List.length_pos.mpr hrows
  have hne : ¬ (((stagedRows df cfg).zip (duplicatedFlags kv)).filterMap
      (fun p => if p.2 then none else some p.1)).isEmpty = true := by
    rw [hkept]
    simp only [List.isEmpty_iff, List.map_eq_nil_iff]
    intro hnil
    rw [hnil] at h0mem
    exact absurd h0mem (List.not_mem_nil 0)
  rw [transform_core df cfg hrows hcols hmaps hsrc, if_pos hcont]
  simp only [hvdc]
  rw [hval]
  rw [if_neg (by simp)]
  simp only [hkv]
  rw [if_pos hdup, hmode, if_neg (by decide), if_pos rfl, if_neg hne]
  exact ⟨_, rfl, hkept, filterMap_zip_sublist _ _⟩

/-- Witness for C2 on key values [A, B, A, C, B]: the first A, the
    first B and C are retained, in order, and 2 removed rows are
    reported. -/
theorem C2_keep_first_duplicates_witness :
    ∃ kept : List (List Cell),
      transform_dataframe
          ⟨[strCodes "K"],
            [[some (strCodes "11111.11111")], [some (strCodes "22222.22222")],
             [some (strCodes "11111.11111")], [some (strCodes "33333.33333")],
             [some (strCodes "22222.22222")]]⟩
          ⟨[⟨strCodes "K", strCodes "K"⟩], strCodes "none",
            strCodes "keep-first", strCodes "K", strCodes "out.csv"⟩ =
        .ok (⟨projectedCols [⟨strCodes "K", strCodes "K"⟩], kept⟩,
          [(stagedRows
              ⟨[strCodes "K"],
                [[some (strCodes "11111.11111")], [some (strCodes "22222.22222")],
                 [some (strCodes "11111.11111")], [some (strCodes "33333.33333")],
                 [some (strCodes "22222.22222")]]⟩
              ⟨[⟨strCodes "K", strCodes "K"⟩], strCodes "none",
                strCodes "keep-first", strCodes "K", strCodes "out.csv"⟩).length -
            kept.length]) ∧
      kept = ((List.range (stagedRows
          ⟨[strCodes "K"],
            [[some (strCodes "11111.11111")], [some (strCodes "22222.22222")],
             [some (strCodes "11111.11111")], [some (strCodes "33333.33333")],
             [some (strCodes "22222.22222")]]⟩
          ⟨[⟨strCodes "K", strCodes "K"⟩], strCodes "none",
            strCodes "keep-first", strCodes "K", strCodes "out.csv"⟩).length).filter
        (fun i => !decide (∃ j, j < i ∧
          ([some (strCodes "11111.11111"), some (strCodes "22222.22222"),
            some (strCodes "11111.11111"), some (strCodes "33333.33333"),
            some (strCodes "22222.22222")] : List Cell).getD j none =
          ([some (strCodes "11111.11111"), some (strCodes "22222.22222"),
            some (strCodes "11111.11111"), some (strCodes "33333.33333"),
            some (strCodes "22222.22222")] : List Cell).getD i none))).map
        (fun i => (stagedRows
          ⟨[strCodes "K"],
            [[some (strCodes "11111.11111")], [some (strCodes "22222.22222")],
             [some (strCodes "11111.11111")], [some (strCodes "33333.33333")],
             [some (strCodes "22222.22222")]]⟩
          ⟨[⟨strCodes "K", strCodes "K"⟩], strCodes "none",
            strCodes "keep-first", strCodes "K", strCodes "out.csv"⟩).getD i []) ∧
      List.Sublist kept (stagedRows
        ⟨[strCodes "K"],
          [[some (strCodes "11111.11111")], [some (strCodes "22222.22222")],
           [some (strCodes "11111.11111")], [some (strCodes "33333.33333")],
           [some (strCodes "22222.22222")]]⟩
        ⟨[⟨strCodes "K", strCodes "K"⟩], strCodes "none",
          strCodes "keep-first", strCodes "K", strCodes "out.csv"⟩) :=
  C2_keep_first_duplicates
    ⟨[strCodes "K"],
      [[some (strCodes "11111.11111")], [some (strCodes "22222.22222")],
       [some (strCodes "11111.11111")], [some (strCodes "33333.33333")],
       [some (strCodes "22222.22222")]]⟩
    ⟨[⟨strCodes "K", strCodes "K"⟩], strCodes "none", strCodes "keep-first",
      strCodes "K", strCodes "out.csv"⟩
    [some (strCodes "11111.11111"), some (strCodes "22222.22222"),
     some (strCodes "11111.11111"), some (strCodes "33333.33333"),
     some (strCodes "22222.22222")]
    (by decide) (by decide) (by decide) (by decide) (by decide) (by decide)
    (by decide) (by decide)

/- ------------------------------------------------------------------ -/
/- C3: duplicate_mode = error                                          -/
/- ------------------------------------------------------------------ -/

/-- C3: with duplicate_mode = error, when the key column is projected,
    validation passes and duplicates exist, the pipeline fails with a
    duplicate-keys error listing the key value of every non-first
    occurrence (once per occurrence, not once per distinct value) and
    returns no table. -/
theorem C3_duplicate_error_mode (df : DF) (cfg : TransformConfig)
    (kv : List Cell)
    (hrows : df.rows ≠ []) (hcols : df.cols ≠ [])
    (hmaps : cfg.column_mappings ≠ [])
    (hsrc : ∀ m ∈ cfg.column_mappings, df.cols.contains m.source_name = true)
    (hmode : cfg.duplicate_handling = strCodes "error")
    (hkv : DF.column ⟨projectedCols cfg.column_mappings, stagedRows df cfg⟩
      cfg.key_column = some kv)
    (hval : rowErrors kv = [])
    (hdup : (duplicatedFlags kv).any id = true) :
    transform_dataframe df cfg =
      .error (.duplicateKeys (((List.range kv.length).filter
        (fun i => decide (∃ j, j < i ∧ kv.getD j none = kv.getD i none))).map
        (fun i => kv.getD i none))) := by
  have hcont := DF.column_contains hkv
  have hvdc : validate_dataframe_codes
      ⟨projectedCols cfg.column_mappings, stagedRows df cfg⟩ cfg.key_column =
      .ok (rowErrors kv) := by
    unfold validate_dataframe_codes
    rw [hkv]
  rw [transform_core df cfg hrows hcols hmaps hsrc, if_pos hcont]
  simp only [hvdc]
  rw [hval]
  rw [if_neg (by simp)]
  simp only [hkv]
  rw [if_pos hdup, hmode, if_pos rfl, dup_select_eq]

/-- Witness for C3 on key values [X, Y, X]: the failure lists [X]. -/
theorem C3_duplicate_error_mode_witness :
    transform_dataframe
        ⟨[strCodes "K"],
          [[some (strCodes "11111.11111")], [some (strCodes "22222.22222")],
           [some (strCodes "11111.11111")]]⟩
        ⟨[⟨strCodes "K", strCodes "K"⟩], strCodes "none", strCodes "error",
          strCodes "K", strCodes "out.csv"⟩ =
      .error (.duplicateKeys ((((List.range
          ([some (strCodes "11111.11111"), some (strCodes "22222.22222"),
            some (strCodes "11111.11111")] : List Cell).length).filter
        (fun i => decide (∃ j, j < i ∧
          ([some (strCodes "11111.11111"), some (strCodes "22222.22222"),
            some (strCodes "11111.11111")] : List Cell).getD j none =
          ([some (strCodes "11111.11111"), some (strCodes "22222.22222"),
            some (strCodes "11111.11111")] : List Cell).getD i none)))).map
        (fun i => ([some (strCodes "11111.11111"), some (strCodes "22222.22222"),
            some (strCodes "11111.11111")] : List Cell).getD i none))) :=
  C3_duplicate_error_mode
    ⟨[strCodes "K"],
      [[some (strCodes "11111.11111")], [some (strCodes "22222.22222")],
       [some (strCodes "11111.11111")]]⟩
    ⟨[⟨strCodes "K", strCodes "K"⟩], strCodes "none", strCodes "error",
      strCodes "K", strCodes "out.csv"⟩
    [some (strCodes "11111.11111"), some (strCodes "22222.22222"),
     some (strCodes "11111.11111")]
    (by decide) (by decide) (by decide) (by decide) (by decide) (by decide)
    (by decide) (by decide)

/- ------------------------------------------------------------------ -/
/- C9: the AllRowsDuplicated branch is unreachable                     -/
/- ------------------------------------------------------------------ -/

/-- C9: keep-first deduplication always retains the first occurrence of
    each key, so a non-empty table can never become empty there: the
    all-rows-duplicated error is unreachable for every input. -/
theorem C9_all_rows_duplicated_unreachable :
    ∀ (df : DF) (cfg : TransformConfig),
      transform_dataframe df cfg ≠ .error .allRowsDuplicated := by
  intro df cfg h
  by_cases hrows : df.rows = []
  · unfold transform_dataframe at h
    rw [if_pos (Or.inl (by simp [hrows]))] at h
    simp at h
  · by_cases hcols : df.cols = []
    · unfold transform_dataframe at h
      rw [if_pos (Or.inr (by simp [hcols]))] at h
      simp at h
    · by_cases hmaps : cfg.column_mappings = []
      · unfold transform_dataframe at h
        rw [if_neg (by simp [List.isEmpty_iff, hrows, hcols]),
          if_pos (by simp [hmaps])] at h
        simp at h
      · unfold transform_dataframe at h
        rw [if_neg (by simp [List.isEmpty_iff, hrows, hcols]),
          if_neg (by simp [List.isEmpty_iff, hmaps])] at h
        cases hf : (cfg.column_mappings.map (fun m => m.source_name)).find?
            (fun c => !(df.cols.contains c)) with
        | some c =>
          simp only [hf] at h
          simp at h
        | none =>
          simp only [hf] at h
          rw [if_neg (by
            simp [List.isEmpty_iff, List.map_eq_nil_iff, hrows, projectedCols,
              hmaps]), stagedRows_def] at h
          cases hK : (projectedCols cfg.column_mappings).contains cfg.key_column with
          | false =>
            rw [if_neg (by rw [hK]; simp)] at h
            simp at h
          | true =>
            rw [if_pos hK] at h
            cases hv : validate_dataframe_codes
                ⟨projectedCols cfg.column_mappings, stagedRows df cfg⟩
                cfg.key_column with
            | error c =>
              simp only [hv] at h
              simp at h
            | ok errs =>
              simp only [hv] at h
              cases he : errs.isEmpty with
              | false =>
                rw [if_pos (by simp [he])] at h
                simp at h
              | true =>
                rw [if_neg (by simp [he])] at h
                cases hcol : DF.column
                    ⟨projectedCols cfg.column_mappings, stagedRows df cfg⟩
                    cfg.key_column with
                | none =>
                  simp only [hcol] at h
                  simp at h
                | some keyvals =>
                  simp only [hcol] at h
                  cases hfl : (duplicatedFlags keyvals).any id with
                  | false =>
                    rw [if_neg (by simp [hfl])] at h
                    simp at h
                  | true =>
                    rw [if_pos hfl] at h
                    by_cases hm1 : cfg.duplicate_handling = strCodes "error"
                    · rw [if_pos hm1] at h
                      simp at h
                    · rw [if_neg hm1] at h
                      by_cases hm2 : cfg.duplicate_handling = strCodes "keep-first"
                      · rw [if_pos hm2] at h
                        cases hke : (((stagedRows df cfg).zip
                            (duplicatedFlags keyvals)).filterMap
                            (fun p => if p.2 then none else some p.1)).isEmpty with
                        | false =>
                          rw [if_neg (by simp [hke])] at h
                          simp at h
                        | true =>
                          obtain ⟨i, hfi, hlt, hkveq⟩ := DF.column_decomp hcol
                          have hstg : stagedRows df cfg ≠ [] := by
                            intro h0
                            apply hrows
                            have hl := stagedRows_length df cfg
                            rw [h0] at hl
                            exact List.length_eq_zero.mp hl.symm
                          cases hs : stagedRows df cfg with
                          | nil => exact hstg hs
                          | cons r rest =>
                            rw [hs] at hkveq hke
                            rw [hkveq] at hke
                            simp [duplicatedFlags, dupFlags, List.contains] at hke
                      · rw [if_neg hm2] at h
                        simp at h

/- ------------------------------------------------------------------ -/
/- Cell tracing through the stages (for C10)                           -/
/- ------------------------------------------------------------------ -/

theorem getD_map_in {α β : Type _} (f : α → β) (l : List α) (j : Nat)
    (hj : j < l.length) (d : α) (d' : β) :
    (l.map f).getD j d' = f (l.getD j d) := by
  rw [List.getD_eq_getElem?_getD, List.getD_eq_getElem?_getD,
    List.getElem?_map, List.getElem?_eq_getElem hj]
  rfl

theorem getD_map_listmap (g : Cell → Cell) (rs : List (List Cell)) (j : Nat) :
    (rs.map (List.map g)).getD j [] = List.map g (rs.getD j []) := by
  by_cases hj : j < rs.length
  · exact getD_map_in (List.map g) rs j hj [] []
  · rw [List.getD_eq_getElem?_getD, List.getD_eq_getElem?_getD,
      List.getElem?_eq_none (by simpa using Nat.le_of_not_lt hj),
      List.getElem?_eq_none (by simpa using Nat.le_of_not_lt hj)]
    rfl

/-- After null normalization, every cell is a string (never NaN). -/
theorem fillna_getD_some (rs : List (List Cell)) (j : Nat) :
    ∀ c ∈ (fillnaStage rs).getD j [], ∃ s, c = some s := by
  unfold fillnaStage
  rw [getD_map_listmap]
  intro c hc
  obtain ⟨c', _, rfl⟩ := List.mem_map.mp hc
  cases c' <;> exact ⟨_, rfl⟩

/-- Every cell of the staged table is a string (never NaN): the case
    stage preserves the fillna guarantee. -/
theorem staged_cells_some (df : DF) (cfg : TransformConfig) (j : Nat) :
    ∀ c ∈ (stagedRows df cfg).getD j [], ∃ s, c = some s := by
  unfold stagedRows caseStage
  split_ifs <;>
    first
    | (rw [getD_map_listmap]
       intro c hc
       obtain ⟨c', hc', rfl⟩ := List.mem_map.mp hc
       obtain ⟨s, rfl⟩ := fillna_getD_some _ j c' hc'
       exact ⟨_, rfl⟩)
    | exact fillna_getD_some _ j

/-- Every staged row (within bounds) has one cell per mapping. -/
theorem stagedRows_getD_length (df : DF) (cfg : TransformConfig) (j : Nat)
    (hj : j < df.rows.length) :
    ((stagedRows df cfg).getD j []).length = cfg.column_mappings.length := by
  have hrows1 : ((df.rows.map (projectRow df.cols cfg.column_mappings)).getD
      j []).length = cfg.column_mappings.length := by
    rw [getD_map_in (projectRow df.cols cfg.column_mappings) df.rows j hj [] []]
    unfold projectRow
    simp
  unfold stagedRows caseStage
  split_ifs <;>
    simp only [getD_map_listmap, List.length_map, trimStage, fillnaStage,
      hrows1]

/-- The second component of the validator on a string never reports
    CodeEmpty. -/
theorem validate_some_snd_ne (s : Str) (b : Bool) (r : Option Reason)
    (h : validate_client_matter_code (some s) = (b, r)) :
    r ≠ some Reason.codeEmpty := by
  simp only [validate_client_matter_code] at h
  split_ifs at h <;> (cases h; simp)

/-- Inversion: a ValidationFailed outcome always carries exactly the
    error list computed over the staged key column. -/
theorem transform_validationFailed_inv (df : DF) (cfg : TransformConfig)
    (errs : List ValidationError)
    (h : transform_dataframe df cfg = .error (.validationFailed errs)) :
    ∃ kv, DF.column ⟨projectedCols cfg.column_mappings, stagedRows df cfg⟩
        cfg.key_column = some kv ∧ errs = rowErrors kv := by
  by_cases hrows : df.rows = []
  · unfold transform_dataframe at h
    rw [if_pos (Or.inl (by simp [hrows]))] at h
    simp at h
  · by_cases hcols : df.cols = []
    · unfold transform_dataframe at h
      rw [if_pos (Or.inr (by simp [hcols]))] at h
      simp at h
    · by_cases hmaps : cfg.column_mappings = []
      · unfold transform_dataframe at h
        rw [if_neg (by simp [List.isEmpty_iff, hrows, hcols]),
          if_pos (by simp [hmaps])] at h
        simp at h
      · unfold transform_dataframe at h
        rw [if_neg (by simp [List.isEmpty_iff, hrows, hcols]),
          if_neg (by simp [List.isEmpty_iff, hmaps])] at h
        cases hf : (cfg.column_mappings.map (fun m => m.source_name)).find?
            (fun c => !(df.cols.contains c)) with
        | some c =>
          simp only [hf] at h
          simp at h
        | none =>
          simp only [hf] at h
          rw [if_neg (by
            simp [List.isEmpty_iff, List.map_eq_nil_iff, hrows, projectedCols,
              hmaps]), stagedRows_def] at h
          cases hK : (projectedCols cfg.column_mappings).contains cfg.key_column with
          | false =>
            rw [if_neg (by rw [hK]; simp)] at h
            simp at h
          | true =>
            rw [if_pos hK] at h
            cases hcol : DF.column
                ⟨projectedCols cfg.column_mappings, stagedRows df cfg⟩
                cfg.key_column with
            | none =>
              have hv : validate_dataframe_codes
                  ⟨projectedCols cfg.column_mappings, stagedRows df cfg⟩
                  cfg.key_column = .error cfg.key_column := by
                unfold validate_dataframe_codes
                rw [hcol]
              simp only [hv] at h
              simp at h
            | some kv =>
              have hv : validate_dataframe_codes
                  ⟨projectedCols cfg.column_mappings, stagedRows df cfg⟩
                  cfg.key_column = .ok (rowErrors kv) := by
                unfold validate_dataframe_codes
                rw [hcol]
              simp only [hv] at h
              cases he : (rowErrors kv).isEmpty with
              | false =>
                rw [if_pos (by simp [he])] at h
                simp at h
                exact ⟨kv, rfl, h.symm⟩
              | true =>
                rw [if_neg (by simp [he])] at h
                simp only [hcol] at h
                cases hfl : (duplicatedFlags kv).any id with
                | false =>
                  rw [if_neg (by simp [hfl])] at h
                  simp at h
                | true =>
                  rw [if_pos hfl] at h
                  by_cases hm1 : cfg.duplicate_handling = strCodes "error"
                  · rw [if_pos hm1] at h
                    simp at h
                  · rw [if_neg hm1] at h
                    by_cases hm2 : cfg.duplicate_handling = strCodes "keep-first"
                    · rw [if_pos hm2] at h
                      cases hke : (((stagedRows df cfg).zip
                          (duplicatedFlags kv)).filterMap
                          (fun p => if p.2 then none else some p.1)).isEmpty with
                      | true =>
                        rw [if_pos hke] at h
                        simp at h
                      | false =>
                        rw [if_neg (by simp [hke])] at h
                        simp at h
                    · rw [if_neg hm2] at h
                      simp at h

/- ------------------------------------------------------------------ -/
/- C10: null normalization precedes validation                         -/
/- ------------------------------------------------------------------ -/

theorem getD_mem_of_lt {α : Type _} (l : List α) (i : Nat) (d : α)
    (h : i < l.length) : l.getD i d ∈ l := by
  rw [List.getD_eq_getElem?_getD, List.getElem?_eq_getElem h]
  exact List.getElem_mem h

/-- C10: because `fillna("")` runs before key validation, the pipeline
    never reports a CodeEmpty reason (every validated cell is a string),
    and a null key cell surfaces as the empty string, reported with the
    MissingPeriod reason at its row. -/
theorem C10_null_cells_become_missing_period :
    (∀ (df : DF) (cfg : TransformConfig) (errs : List ValidationError),
      transform_dataframe df cfg = .error (.validationFailed errs) →
      ∀ e ∈ errs, e.value ≠ none ∧ e.error ≠ some Reason.codeEmpty) ∧
    (∀ (df : DF) (cfg : TransformConfig) (i k : Nat),
      df.rows ≠ [] → df.cols ≠ [] → cfg.column_mappings ≠ [] →
      (∀ m ∈ cfg.column_mappings, df.cols.contains m.source_name = true) →
      (projectedCols cfg.column_mappings).findIdx?
        (fun c => c == cfg.key_column) = some k →
      i < df.rows.length →
      ((df.rows.map (projectRow df.cols cfg.column_mappings)).getD i []).getD
        k none = none →
      ∃ errs, transform_dataframe df cfg = .error (.validationFailed errs) ∧
        (⟨i + 2, some [], some Reason.missingPeriod⟩ : ValidationError) ∈ errs) := by
  constructor
  · intro df cfg errs htr e he
    obtain ⟨kv, hcol, rfl⟩ := transform_validationFailed_inv df cfg errs htr
    obtain ⟨i2, hfi2, hlt2, hkveq0⟩ := DF.column_decomp hcol
    have hkveq : kv = (stagedRows df cfg).map (fun r => r.getD i2 none) := hkveq0
    obtain ⟨j, hj, hrowj, hvalj, hvd⟩ := rowErrorsFrom_mem kv 0 e he
    have hjlen : j < (stagedRows df cfg).length := by
      rw [hkveq] at hj
      simpa using hj
    have hvalue : e.value = ((stagedRows df cfg).getD j []).getD i2 none := by
      rw [hvalj, hkveq, getD_map_in _ _ j hjlen [] none]
    have hi2len : i2 < ((stagedRows df cfg).getD j []).length := by
      rw [stagedRows_getD_length df cfg j
        (by rw [← stagedRows_length df cfg]; exact hjlen)]
      simpa [projectedCols] using hlt2
    have hmemrow : ((stagedRows df cfg).getD j []).getD i2 none ∈
        (stagedRows df cfg).getD j [] :=
      getD_mem_of_lt _ i2 none hi2len
    obtain ⟨s, hs⟩ := staged_cells_some df cfg j _ hmemrow
    have hvs : e.value = some s := by rw [hvalue, hs]
    constructor
    · rw [hvs]; simp
    · have hvd2 : validate_client_matter_code (some s) = (false, e.error) := by
        rw [← hvs]; exact hvd
      exact validate_some_snd_ne s false e.error hvd2
  · intro df cfg i k hrows hcols hmaps hsrc hfi hi hnull
    have hk : k < cfg.column_mappings.length := by
      have hb := (List.findIdx?_eq_some_iff_findIdx_eq.mp hfi).1
      simpa [projectedCols] using hb
    have hrow1len : ((df.rows.map
        (projectRow df.cols cfg.column_mappings)).getD i []).length =
        cfg.column_mappings.length := by
      rw [getD_map_in (projectRow df.cols cfg.column_mappings) df.rows i hi [] []]
      unfold projectRow
      simp
    have h2 : ((trimStage (df.rows.map
        (projectRow df.cols cfg.column_mappings))).getD i []).getD k none =
        none := by
      unfold trimStage
      rw [getD_map_listmap, getD_map_in (cellMap trimCodes) _ k
        (by rw [hrow1len]; exact hk) none none, hnull]
      rfl
    have htrimlen : ((trimStage (df.rows.map
        (projectRow df.cols cfg.column_mappings))).getD i []).length =
        cfg.column_mappings.length := by
      unfold trimStage
      rw [getD_map_listmap, List.length_map, hrow1len]
    have h3 : ((fillnaStage (trimStage (df.rows.map
        (projectRow df.cols cfg.column_mappings)))).getD i []).getD k none =
        some [] := by
      unfold fillnaStage
      rw [getD_map_listmap, getD_map_in _ _ k (by rw [htrimlen]; exact hk)
        none none, h2]
    have hfillen : ((fillnaStage (trimStage (df.rows.map
        (projectRow df.cols cfg.column_mappings)))).getD i []).length =
        cfg.column_mappings.length := by
      unfold fillnaStage
      rw [getD_map_listmap, List.length_map, htrimlen]
    have hcell : ((stagedRows df cfg).getD i []).getD k none = some [] := by
      unfold stagedRows caseStage
      split_ifs
      · rw [getD_map_listmap, getD_map_in (cellMap strUpper) _ k
          (by rw [hfillen]; exact hk) none none, h3]
        rfl
      · rw [getD_map_listmap, getD_map_in (cellMap strLower) _ k
          (by rw [hfillen]; exact hk) none none, h3]
        rfl
      · rw [getD_map_listmap, getD_map_in (cellMap strTitle) _ k
          (by rw [hfillen]; exact hk) none none, h3]
        rfl
      · exact h3
    have hstlen := stagedRows_length df cfg
    have hcol : DF.column
        ⟨projectedCols cfg.column_mappings, stagedRows df cfg⟩ cfg.key_column =
        some ((stagedRows df cfg).map (fun r => r.getD k none)) := by
      show ((projectedCols cfg.column_mappings).findIdx?
          (fun c => c == cfg.key_column)).map
          (fun idx => (stagedRows df cfg).map (fun r => r.getD idx none)) =
        some ((stagedRows df cfg).map (fun r => r.getD k none))
      rw [hfi, Option.map_some']
    have hkvcell : ((stagedRows df cfg).map (fun r => r.getD k none)).getD
        i none = some [] := by
      rw [getD_map_in _ _ i (by rw [hstlen]; exact hi) [] none, hcell]
    have hmem := rowErrorsFrom_complete
      ((stagedRows df cfg).map (fun r => r.getD k none)) 0 i
      (some Reason.missingPeriod)
      (by rw [List.length_map, hstlen]; exact hi)
      (by rw [hkvcell]; decide)
    rw [hkvcell] at hmem
    have hne : rowErrors ((stagedRows df cfg).map (fun r => r.getD k none)) ≠
        [] := List.ne_nil_of_mem hmem
    have hcont : (projectedCols cfg.column_mappings).contains cfg.key_column =
        true := DF.column_contains hcol
    have hv : validate_dataframe_codes
        ⟨projectedCols cfg.column_mappings, stagedRows df cfg⟩ cfg.key_column =
        .ok (rowErrors ((stagedRows df cfg).map (fun r => r.getD k none))) := by
      unfold validate_dataframe_codes
      rw [hcol]
    rw [transform_core df cfg hrows hcols hmaps hsrc, if_pos hcont]
    simp only [hv]
    rw [if_pos (by
      cases hx : (rowErrors ((stagedRows df cfg).map
          (fun r => r.getD k none))).isEmpty with
      | true => exact absurd (List.isEmpty_iff.mp hx) hne
      | false => rfl)]
    exact ⟨_, rfl, hmem⟩

/-- Witness for C10: a single null key cell is reported at row 2 as the
    empty string with the MissingPeriod reason. -/
theorem C10_null_cells_become_missing_period_witness :
    ∃ errs, transform_dataframe ⟨[strCodes "K"], [[none]]⟩
        ⟨[⟨strCodes "K", strCodes "K"⟩], strCodes "none", strCodes "error",
          strCodes "K", strCodes "out.csv"⟩ =
        .error (.validationFailed errs) ∧
      (⟨0 + 2, some [], some Reason.missingPeriod⟩ : ValidationError) ∈ errs :=
  C10_null_cells_become_missing_period.2 ⟨[strCodes "K"], [[none]]⟩
    ⟨[⟨strCodes "K", strCodes "K"⟩], strCodes "none", strCodes "error",
      strCodes "K", strCodes "out.csv"⟩ 0 0
    (by decide) (by decide) (by decide) (by decide) (by decide) (by decide)
    (by decide)

end ProjectCSV
